import Mathlib

/-!
Verification of the expense-tracker ledger (src/main.py).

Shallow embedding: the SQLite table `expenses` is modelled as a `Store`
holding the rows in rowid (= id) order together with the next
AUTOINCREMENT value.  The column `amount REAL` is modelled as `Rat`;
`date`, `category`, `subcategory`, `note` (all `TEXT`) are `String`s,
compared with the BINARY collation, which on the code-point strings used
here coincides with the lexicographic `String` order.  Each tool
operation becomes a pure function from the store (plus its arguments) to
a result payload and a new store.  `ORDER BY date ASC` is modelled as a
stable sort over the rowid scan order (`List.insertionSort` is stable).
The try/except wrapper of every tool is modelled by a `_catch` variant
taking an optional fault (the exception text); the except-branch of each
tool is its `...OnError` handler.
-/

/-- One row of the `expenses` table. -/
structure Expense where
  id : Nat
  date : String
  amount : Rat
  category : String
  subcategory : String
  note : String
  deriving DecidableEq, Repr

/-- The persistent state: rows in rowid order plus the next AUTOINCREMENT id. -/
structure Store where
  rows : List Expense
  nextId : Nat
  deriving DecidableEq, Repr

/-- A tool return value: a row list, an aggregate list, or a status dict
with the message (and, for `add_expense`, the fresh id). -/
inductive ToolResult where
  | rows (records : List Expense)
  | summary (records : List (String × Rat))
  | okId (id : Nat) (message : String)
  | ok (message : String)
  | err (message : String)
  deriving DecidableEq, Repr

def ToolResult.getRows : ToolResult → List Expense
  | ToolResult.rows rs => rs
  | _ => []

def ToolResult.getSummary : ToolResult → List (String × Rat)
  | ToolResult.summary rs => rs
  | _ => []

def ToolResult.isErr : ToolResult → Bool
  | ToolResult.err _ => true
  | _ => false

/-- Lexicographic comparison of character lists: the order SQLite BINARY
collation gives to the code-point strings stored here. -/
def charListLe : List Char → List Char → Bool
  | [], _ => true
  | _ :: _, [] => false
  | a :: as, b :: bs =>
    if a < b then true
    else if b < a then false
    else charListLe as bs

/-- SQLite BINARY `<=` on TEXT values. -/
def strLe (a b : String) : Prop := charListLe a.data b.data = true

instance : DecidableRel strLe :=
  fun a b => inferInstanceAs (Decidable (charListLe a.data b.data = true))

theorem charListLe_refl : ∀ l : List Char, charListLe l l = true
  | [] => rfl
  | a :: as => by simp [charListLe, lt_irrefl a, charListLe_refl as]

theorem charListLe_total : ∀ l₁ l₂ : List Char,
    charListLe l₁ l₂ = true ∨ charListLe l₂ l₁ = true
  | [], _ => Or.inl rfl
  | _ :: _, [] => Or.inr rfl
  | a :: as, b :: bs => by
    rcases lt_trichotomy a b with h | h | h
    · exact Or.inl (by simp [charListLe, h])
    · subst h
      rcases charListLe_total as bs with h2 | h2
      · exact Or.inl (by simp [charListLe, lt_irrefl a, h2])
      · exact Or.inr (by simp [charListLe, lt_irrefl a, h2])
    · exact Or.inr (by simp [charListLe, h])

theorem charListLe_trans : ∀ l₁ l₂ l₃ : List Char,
    charListLe l₁ l₂ = true → charListLe l₂ l₃ = true → charListLe l₁ l₃ = true
  | [], _, _, _, _ => rfl
  | a :: as, [], _, h, _ => by simp [charListLe] at h
  | _ :: _, _ :: _, [], _, h2 => by simp [charListLe] at h2
  | a :: as, b :: bs, c :: cs, h1, h2 => by
    by_cases hab : a < b
    · by_cases hbc : b < c
      · simp [charListLe, lt_trans hab hbc]
      · by_cases hcb : c < b
        · simp [charListLe, hbc, hcb] at h2
        · have hbc' : b = c := le_antisymm (not_lt.mp hcb) (not_lt.mp hbc)
          subst hbc'
          simp [charListLe, hab]
    · by_cases hba : b < a
      · simp [charListLe, hab, hba] at h1
      · have hab' : a = b := le_antisymm (not_lt.mp hba) (not_lt.mp hab)
        subst hab'
        simp only [charListLe, lt_irrefl a, if_false] at h1
        by_cases hac : a < c
        · simp [charListLe, hac]
        · by_cases hca : c < a
          · simp [charListLe, hac, hca] at h2
          · simp only [charListLe, hac, hca, if_false]
            exact charListLe_trans as bs cs h1 (by simpa [charListLe, hac, hca] using h2)

theorem strLe_refl (a : String) : strLe a a := charListLe_refl a.data

theorem strLe_total (a b : String) : strLe a b ∨ strLe b a :=
  charListLe_total a.data b.data

theorem strLe_trans {a b c : String} (h1 : strLe a b) (h2 : strLe b c) : strLe a c :=
  charListLe_trans a.data b.data c.data h1 h2

instance : IsTotal String strLe := ⟨strLe_total⟩

instance : IsTrans String strLe := ⟨fun _ _ _ => strLe_trans⟩

/-- The comparison used by `ORDER BY date ASC`. -/
def dateLe (a b : Expense) : Prop := strLe a.date b.date

instance : DecidableRel dateLe :=
  fun a b => inferInstanceAs (Decidable (strLe a.date b.date))

instance : IsTotal Expense dateLe := ⟨fun a b => strLe_total a.date b.date⟩

instance : IsTrans Expense dateLe := ⟨fun _ _ _ h h2 => strLe_trans h h2⟩

/-- `ORDER BY date ASC`: SQLite scans the table in rowid order and its
sorter keeps equal keys in scan order, hence a stable sort. -/
def orderByDateAsc (l : List Expense) : List Expense :=
  List.insertionSort dateLe l

/-- `date BETWEEN ? AND ?` (inclusive on both ends, BINARY collation). -/
def between (d lo hi : String) : Bool :=
  charListLe lo.data d.data && charListLe d.data hi.data

/-- `init_db`: `CREATE TABLE IF NOT EXISTS` (a no-op on existing rows),
then the write-access probe: insert one row
`('2000-01-01', 0, 'test')` and run `DELETE FROM expenses WHERE category = 'test'`. -/
def init_db (s : Store) : Store :=
  let probe : Expense :=
    { id := s.nextId, date := "2000-01-01", amount := 0,
      category := "test", subcategory := "", note := "" }
  { rows := (s.rows ++ [probe]).filter (fun e => e.category != "test"),
    nextId := s.nextId + 1 }

/-- `add_expense`: INSERT one row, return `lastrowid`. -/
def add_expense (s : Store) (date : String) (amount : Rat)
    (category subcategory note : String) : ToolResult × Store :=
  let e : Expense :=
    { id := s.nextId, date := date, amount := amount,
      category := category, subcategory := subcategory, note := note }
  (ToolResult.okId s.nextId "Expense added successfully",
   { rows := s.rows ++ [e], nextId := s.nextId + 1 })

/-- `get_all_expenses`: SELECT every row, `ORDER BY date ASC`. -/
def get_all_expenses (s : Store) : ToolResult :=
  ToolResult.rows (orderByDateAsc s.rows)

/-- `list_expenses_by_date`: SELECT rows with
`date BETWEEN ? AND ?`, `ORDER BY date ASC`. -/
def list_expenses_by_date (s : Store) (start_date end_date : String) : ToolResult :=
  ToolResult.rows (orderByDateAsc
    (s.rows.filter (fun e => between e.date start_date end_date)))

/-- Python truthiness of the optional `category` argument (`if category:`):
`None` and the empty string are falsy. -/
def truthy : Option String → Bool
  | none => false
  | some c => c != ""

/-- `SUM(amount)` over a group of rows. -/
def sumAmounts (l : List Expense) : Rat :=
  (l.map Expense.amount).sum

/-- `summarize`: filter by date range, append `AND category=?` only when
the `category` argument is truthy, then `GROUP BY category ORDER BY category ASC`
with `SUM(amount)` per group. -/
def summarize (s : Store) (start_date end_date : String)
    (category : Option String) : ToolResult :=
  let inRange : List Expense :=
    s.rows.filter (fun e => between e.date start_date end_date)
  let filtered : List Expense :=
    if truthy category then inRange.filter (fun e => e.category == category.getD "")
    else inRange
  let cats := List.insertionSort strLe (filtered.map Expense.category).dedup
  ToolResult.summary
    (cats.map (fun c => (c, sumAmounts (filtered.filter (fun e => e.category == c)))))

/-- The row predicate of `DELETE FROM expenses WHERE id=? AND category=?`,
bound with the parameters `(expense_id, catogery)`. -/
def matchIdCat (expense_id : Nat) (catogery : String) (e : Expense) : Bool :=
  e.id == expense_id && e.category == catogery

/-- `delete_expense_by_id_catogery(catogery, expense_id)`: despite the
argument order of the signature, the statement is
`DELETE ... WHERE id=? AND category=?` with parameters `(expense_id, catogery)`.
The commit happens before the rowcount check, so the store is updated in
both branches (the update is vacuous when nothing matched). -/
def delete_expense_by_id_catogery (s : Store) (catogery : String)
    (expense_id : Nat) : ToolResult × Store :=
  let n := s.rows.countP (matchIdCat expense_id catogery)
  let s2 : Store :=
    { s with rows := s.rows.filter (fun e => !(matchIdCat expense_id catogery e)) }
  if n = 0 then
    (ToolResult.err "No expense found with the given ID and category.", s2)
  else
    (ToolResult.ok "Expense deleted successfully.", s2)

/-- `delete_expense_by_id`: `DELETE ... WHERE id=?`; rowcount 0 is an error. -/
def delete_expense_by_id (s : Store) (expense_id : Nat) : ToolResult × Store :=
  let n := s.rows.countP (fun e => e.id == expense_id)
  let s2 : Store := { s with rows := s.rows.filter (fun e => !(e.id == expense_id)) }
  if n = 0 then
    (ToolResult.err "No expense found with the given ID.", s2)
  else
    (ToolResult.ok "Expense deleted successfully.", s2)

/-- An ASCII single-quote character, kept out of string literals. -/
def quoteCh : String := String.singleton (Char.ofNat 39)

/-- The success message of `delete_expenses_by_category`, with the rowcount. -/
def deletedByCategoryMsg (n : Nat) (category : String) : String :=
  "Deleted " ++ toString n ++ " expenses in category " ++ quoteCh ++ category ++ quoteCh ++ "."

/-- `delete_expenses_by_category`: bulk delete, always a success payload
carrying the number of removed rows. -/
def delete_expenses_by_category (s : Store) (category : String) : ToolResult × Store :=
  let n := s.rows.countP (fun e => e.category == category)
  (ToolResult.ok (deletedByCategoryMsg n category),
   { s with rows := s.rows.filter (fun e => !(e.category == category)) })

/-- The success message of `delete_all_expenses`, with the rowcount. -/
def deletedAllMsg (n : Nat) : String :=
  "Deleted all expenses (" ++ toString n ++ " records)."

/-- `delete_all_expenses`: unconditional delete, always a success payload
carrying the number of removed rows. -/
def delete_all_expenses (s : Store) : ToolResult × Store :=
  (ToolResult.ok (deletedAllMsg s.rows.length), { s with rows := [] })

/-- The optional fields of `update_expense`; `none` is the Python `None`
sentinel meaning "not provided". -/
structure Patch where
  date : Option String
  amount : Option Rat
  category : Option String
  subcategory : Option String
  note : Option String
  deriving DecidableEq, Repr

/-- True when no field was provided: the built assignment list is empty. -/
def Patch.isEmpty (p : Patch) : Bool :=
  p.date.isNone && p.amount.isNone && p.category.isNone &&
    p.subcategory.isNone && p.note.isNone

/-- Apply the `SET` assignments to one row: provided fields overwrite,
sentinel fields are left untouched (assignment order: date, amount,
category, subcategory, note). -/
def applyPatch (p : Patch) (e : Expense) : Expense :=
  { e with
    date := p.date.getD e.date,
    amount := p.amount.getD e.amount,
    category := p.category.getD e.category,
    subcategory := p.subcategory.getD e.subcategory,
    note := p.note.getD e.note }

/-- `update_expense`: build the assignment list from the provided fields;
empty list fails before touching storage; otherwise
`UPDATE expenses SET ... WHERE id=?`, rowcount 0 is a not-found error. -/
def update_expense (s : Store) (expense_id : Nat) (p : Patch) : ToolResult × Store :=
  if p.isEmpty then
    (ToolResult.err "No fields to update.", s)
  else
    let n := s.rows.countP (fun e => e.id == expense_id)
    let s2 : Store :=
      { s with rows :=
          s.rows.map (fun e => if e.id == expense_id then applyPatch p e else e) }
    if n = 0 then
      (ToolResult.err "No expense found with the given ID.", s2)
    else
      (ToolResult.ok "Expense updated successfully.", s2)

/-- Whether `pat` starts the character list `s`. -/
def chStart : List Char → List Char → Bool
  | [], _ => true
  | _ :: _, [] => false
  | p :: ps, c :: cs => p == c && chStart ps cs

/-- Whether `pat` occurs contiguously in the character list. -/
def chSub (pat : List Char) : List Char → Bool
  | [] => pat.isEmpty
  | c :: cs => chStart pat (c :: cs) || chSub pat cs

/-- Python `pat in s` on strings. -/
def strContains (s pat : String) : Bool :=
  chSub pat.data s.data

/-- Python `str.lower()` (the exception texts involved are ASCII). -/
def strLower (s : String) : String :=
  String.mk (s.data.map Char.toLower)

/-- The except-branch of `add_expense`: a fault whose text contains
"readonly" (case-insensitively) gets the read-only hint, anything else
the generic message. -/
def addOnError (e : String) : ToolResult :=
  if strContains (strLower e) "readonly" then
    ToolResult.err "Database is in read-only mode. Check file permissions."
  else
    ToolResult.err ("Database error: " ++ e)

/-- The except-branch of `get_all_expenses`. -/
def getAllOnError (e : String) : ToolResult :=
  ToolResult.err ("Error listing expenses: " ++ e)

/-- The except-branch of `list_expenses_by_date`. -/
def listByDateOnError (e : String) : ToolResult :=
  ToolResult.err ("Error listing expenses by date: " ++ e)

/-- The except-branch of `summarize`. -/
def summarizeOnError (e : String) : ToolResult :=
  ToolResult.err ("Error summarizing expenses by date: " ++ e)

/-- The except-branch of `delete_expense_by_id_catogery`. -/
def deleteByIdCatOnError (e : String) : ToolResult :=
  ToolResult.err ("Error deleting expense: " ++ e)

/-- The except-branch of `delete_expense_by_id`. -/
def deleteByIdOnError (e : String) : ToolResult :=
  ToolResult.err ("Error deleting expense: " ++ e)

/-- The except-branch of `delete_expenses_by_category`. -/
def deleteByCategoryOnError (e : String) : ToolResult :=
  ToolResult.err ("Error deleting expenses by category: " ++ e)

/-- The except-branch of `delete_all_expenses`. -/
def deleteAllOnError (e : String) : ToolResult :=
  ToolResult.err ("Error deleting all expenses: " ++ e)

/-- The except-branch of `update_expense`. -/
def updateOnError (e : String) : ToolResult :=
  ToolResult.err ("Error updating expense: " ++ e)

/-- `init_db` with its try/except: the except-branch re-raises
(the startup check is fatal). -/
def init_db_catch (fault : Option String) (s : Store) : Except String Store :=
  match fault with
  | some e => Except.error e
  | none => Except.ok (init_db s)

/-- `add_expense` with its try/except. -/
def add_expense_catch (fault : Option String) (s : Store) (date : String)
    (amount : Rat) (category subcategory note : String) : ToolResult × Store :=
  match fault with
  | some e => (addOnError e, s)
  | none => add_expense s date amount category subcategory note

/-- `get_all_expenses` with its try/except. -/
def get_all_expenses_catch (fault : Option String) (s : Store) : ToolResult :=
  match fault with
  | some e => getAllOnError e
  | none => get_all_expenses s

/-- `list_expenses_by_date` with its try/except. -/
def list_expenses_by_date_catch (fault : Option String) (s : Store)
    (start_date end_date : String) : ToolResult :=
  match fault with
  | some e => listByDateOnError e
  | none => list_expenses_by_date s start_date end_date

/-- `summarize` with its try/except. -/
def summarize_catch (fault : Option String) (s : Store)
    (start_date end_date : String) (category : Option String) : ToolResult :=
  match fault with
  | some e => summarizeOnError e
  | none => summarize s start_date end_date category

/-- `delete_expense_by_id_catogery` with its try/except. -/
def delete_expense_by_id_catogery_catch (fault : Option String) (s : Store)
    (catogery : String) (expense_id : Nat) : ToolResult × Store :=
  match fault with
  | some e => (deleteByIdCatOnError e, s)
  | none => delete_expense_by_id_catogery s catogery expense_id

/-- `delete_expense_by_id` with its try/except. -/
def delete_expense_by_id_catch (fault : Option String) (s : Store)
    (expense_id : Nat) : ToolResult × Store :=
  match fault with
  | some e => (deleteByIdOnError e, s)
  | none => delete_expense_by_id s expense_id

/-- `delete_expenses_by_category` with its try/except. -/
def delete_expenses_by_category_catch (fault : Option String) (s : Store)
    (category : String) : ToolResult × Store :=
  match fault with
  | some e => (deleteByCategoryOnError e, s)
  | none => delete_expenses_by_category s category

/-- `delete_all_expenses` with its try/except. -/
def delete_all_expenses_catch (fault : Option String) (s : Store) :
    ToolResult × Store :=
  match fault with
  | some e => (deleteAllOnError e, s)
  | none => delete_all_expenses s

/-- `update_expense` with its try/except. -/
def update_expense_catch (fault : Option String) (s : Store)
    (expense_id : Nat) (p : Patch) : ToolResult × Store :=
  match fault with
  | some e => (updateOnError e, s)
  | none => update_expense s expense_id p

/-! Sorting lemmas: `ORDER BY` commutes with `WHERE`, and stable sorting of
an id-increasing scan order yields the date-then-id order. -/

section SortFilter

variable {α : Type} (r : α → α → Prop) [DecidableRel r]

theorem orderedInsert_eq_cons (a : α) :
    ∀ l : List α, (∀ x ∈ l, r a x) → List.orderedInsert r a l = a :: l
  | [], _ => rfl
  | b :: l, h => by
    rw [List.orderedInsert, if_pos (h b (List.mem_cons_self b l))]

theorem filter_orderedInsert [IsTrans α r] (p : α → Bool) (a : α) :
    ∀ l : List α, l.Pairwise r →
      (List.orderedInsert r a l).filter p =
        if p a then List.orderedInsert r a (l.filter p) else l.filter p
  | [], _ => by
    cases hpa : p a <;> simp [List.orderedInsert, hpa]
  | b :: l, h => by
    obtain ⟨hb, hl⟩ := List.pairwise_cons.mp h
    by_cases hab : r a b
    · rw [List.orderedInsert, if_pos hab]
      cases hpa : p a
      · simp [List.filter_cons, hpa]
      · have hcons : List.orderedInsert r a ((b :: l).filter p) = a :: (b :: l).filter p := by
          refine orderedInsert_eq_cons r a _ (fun x hx => ?_)
          rcases List.mem_cons.mp (List.mem_of_mem_filter hx) with hx' | hx'
          · exact hx' ▸ hab
          · exact Trans.trans hab (hb x hx')
        rw [hcons, List.filter_cons]
        simp [hpa]
    · rw [List.orderedInsert, if_neg hab]
      have ih := filter_orderedInsert p a l hl
      cases hpa : p a
      · cases hpb : p b <;> simp [List.filter_cons, hpa, hpb, ih]
      · cases hpb : p b <;>
          simp [List.filter_cons, hpa, hpb, ih, List.orderedInsert, if_neg hab]

theorem filter_insertionSort [IsTotal α r] [IsTrans α r] (p : α → Bool) :
    ∀ l : List α, (List.insertionSort r l).filter p = List.insertionSort r (l.filter p)
  | [] => rfl
  | a :: l => by
    rw [List.insertionSort,
      filter_orderedInsert r p a (List.insertionSort r l) (List.sorted_insertionSort r l),
      filter_insertionSort p l]
    cases hpa : p a
    · simp [List.filter_cons, hpa]
    · simp [List.filter_cons, hpa, List.insertionSort]

end SortFilter

/-- The order the spec ascribes to `get_all_expenses`: strictly by date,
ties strictly by id. -/
def tieOrder (a b : Expense) : Prop :=
  (strLe a.date b.date ∧ a.date ≠ b.date) ∨ (a.date = b.date ∧ a.id < b.id)

instance : DecidableRel tieOrder := fun a b =>
  inferInstanceAs (Decidable
    ((strLe a.date b.date ∧ a.date ≠ b.date) ∨ (a.date = b.date ∧ a.id < b.id)))

theorem tieOrder_of_dateLe {a y : Expense} (h : dateLe a y)
    (hid : a.date = y.date → a.id < y.id) : tieOrder a y := by
  by_cases hde : a.date = y.date
  · exact Or.inr ⟨hde, hid hde⟩
  · exact Or.inl ⟨h, hde⟩

theorem pairwise_tieOrder_orderedInsert (a : Expense) :
    ∀ L : List Expense, L.Pairwise dateLe → L.Pairwise tieOrder →
      (∀ x ∈ L, a.id < x.id) →
      (List.orderedInsert dateLe a L).Pairwise tieOrder
  | [], _, _, _ => List.pairwise_singleton tieOrder a
  | b :: L, hs, hq, hid => by
    obtain ⟨hsb, hsL⟩ := List.pairwise_cons.mp hs
    obtain ⟨hqb, hqL⟩ := List.pairwise_cons.mp hq
    by_cases hab : dateLe a b
    · rw [List.orderedInsert, if_pos hab]
      refine List.Pairwise.cons (fun y hy => ?_) hq
      have hay : dateLe a y := by
        rcases List.mem_cons.mp hy with hy' | hy'
        · exact hy' ▸ hab
        · exact strLe_trans hab (hsb y hy')
      exact tieOrder_of_dateLe hay (fun _ => hid y hy)
    · rw [List.orderedInsert, if_neg hab]
      refine List.Pairwise.cons (fun y hy => ?_)
        (pairwise_tieOrder_orderedInsert a L hsL hqL
          (fun x hx => hid x (List.mem_cons_of_mem b hx)))
      have hy' : y ∈ a :: L := (List.perm_orderedInsert dateLe a L).mem_iff.mp hy
      rcases List.mem_cons.mp hy' with hya | hyL
      · subst hya
        have hne : b.date ≠ y.date := by
          intro hEq
          exact hab (show strLe y.date b.date from hEq ▸ strLe_refl y.date)
        have hba : strLe b.date y.date := (strLe_total b.date y.date).resolve_right hab
        exact Or.inl ⟨hba, hne⟩
      · exact hqb y hyL

theorem pairwise_tieOrder_insertionSort :
    ∀ l : List Expense, l.Pairwise (fun a b => a.id < b.id) →
      (List.insertionSort dateLe l).Pairwise tieOrder
  | [], _ => List.Pairwise.nil
  | a :: l, h => by
    obtain ⟨ha, hl⟩ := List.pairwise_cons.mp h
    rw [List.insertionSort]
    exact pairwise_tieOrder_orderedInsert a (List.insertionSort dateLe l)
      (List.sorted_insertionSort dateLe l)
      (pairwise_tieOrder_insertionSort l hl)
      (fun x hx => ha x ((List.mem_insertionSort dateLe).mp hx))

/-- C1: for every store state and every pair of date strings, the result of
`list_expenses_by_date d1 d2` is exactly the subset of the records returned
by `get_all_expenses` whose date satisfies `d1 <= date <= d2` (string
comparison, both ends inclusive), in the same relative order. -/
theorem claim_C1 (s : Store) (d1 d2 : String) :
    (list_expenses_by_date s d1 d2).getRows
      = (get_all_expenses s).getRows.filter (fun e => between e.date d1 d2) := by
  show List.insertionSort dateLe (s.rows.filter (fun e => between e.date d1 d2))
      = (List.insertionSort dateLe s.rows).filter (fun e => between e.date d1 d2)
  exact (filter_insertionSort dateLe (fun e => between e.date d1 d2) s.rows).symm

/-- C9: for every store whose rows are in insertion order (strictly
increasing ids), `get_all_expenses` returns every stored record, ordered
ascending by date with records sharing a date ordered by id ascending. -/
theorem claim_C9 (s : Store) (hids : s.rows.Pairwise (fun a b => a.id < b.id)) :
    List.Perm (get_all_expenses s).getRows s.rows ∧
      (get_all_expenses s).getRows.Pairwise tieOrder := by
  constructor
  · exact List.perm_insertionSort dateLe s.rows
  · exact pairwise_tieOrder_insertionSort s.rows hids

/-- The concrete store used to witness C9. -/
def storeW9 : Store :=
  ⟨[⟨1, "2024-01-05", 12, "Food", "", ""⟩,
    ⟨2, "2024-01-01", 5, "Fuel", "", ""⟩,
    ⟨3, "2024-01-01", 7, "Food", "", ""⟩], 4⟩

theorem claim_C9_witness :
    List.Perm (get_all_expenses storeW9).getRows storeW9.rows ∧
      (get_all_expenses storeW9).getRows.Pairwise tieOrder :=
  claim_C9 storeW9 (by decide)

/-- C10: passing the empty string as the category argument of `summarize`
behaves identically to passing no category filter at all, because the
filter clause is appended only for truthy category values. -/
theorem claim_C10 (s : Store) (d1 d2 : String) :
    summarize s d1 d2 (some "") = summarize s d1 d2 none := rfl

/-- A store holding one pre-existing user record whose category is "test". -/
def storeTestCat : Store := ⟨[⟨1, "2024-03-01", 9, "test", "", ""⟩], 2⟩

/-- C7 is false as stated: initialization does not leave every previously
stored record unchanged.  The probe cleanup runs
`DELETE FROM expenses WHERE category = 'test'`, which also removes this
pre-existing record with category "test". -/
theorem claim_C7_counterexample :
    Expense.mk 1 "2024-03-01" 9 "test" "" "" ∈ storeTestCat.rows ∧
      Expense.mk 1 "2024-03-01" 9 "test" "" "" ∉ (init_db storeTestCat).rows := by
  decide

/-- C7 amended: repeating initialization is a no-op on the table shape, and
it leaves unchanged exactly the previously stored records whose category
differs from "test"; the probe cleanup removes every record with category
"test", its own probe row included. -/
theorem claim_C7_amended (s : Store) :
    (init_db s).rows = s.rows.filter (fun e => e.category != "test") := by
  show (s.rows ++ [Expense.mk s.nextId "2000-01-01" 0 "test" "" ""]).filter
      (fun e => e.category != "test") = s.rows.filter (fun e => e.category != "test")
  rw [List.filter_append]
  have h : List.filter (fun e => e.category != "test")
      [Expense.mk s.nextId "2000-01-01" 0 "test" "" ""] = [] := rfl
  rw [h, List.append_nil]

/-- The branch shape of `delete_expense_by_id_catogery`. -/
theorem delete_by_id_cat_eq (s : Store) (catogery : String) (expense_id : Nat) :
    delete_expense_by_id_catogery s catogery expense_id
      = if s.rows.countP (matchIdCat expense_id catogery) = 0
          then (ToolResult.err "No expense found with the given ID and category.",
                Store.mk (s.rows.filter (fun e => !(matchIdCat expense_id catogery e))) s.nextId)
          else (ToolResult.ok "Expense deleted successfully.",
                Store.mk (s.rows.filter (fun e => !(matchIdCat expense_id catogery e))) s.nextId) :=
  rfl

/-- C5: the id-plus-category delete removes exactly the records whose id
equals `expense_id` and whose category equals `catogery` (both must match,
despite the swapped parameter order of the signature), and it reports a
not-found error exactly when no stored record matches both, covering both
"no such id" and "id exists but wrong category". -/
theorem claim_C5 (s : Store) (catogery : String) (expense_id : Nat) :
    ((delete_expense_by_id_catogery s catogery expense_id).2.rows
       = s.rows.filter (fun e => !(e.id == expense_id && e.category == catogery))) ∧
    (((delete_expense_by_id_catogery s catogery expense_id).1.isErr = true)
       ↔ ¬ ∃ e ∈ s.rows, e.id = expense_id ∧ e.category = catogery) := by
  have hiff : s.rows.countP (matchIdCat expense_id catogery) = 0
      ↔ ¬ ∃ e ∈ s.rows, e.id = expense_id ∧ e.category = catogery := by
    rw [List.countP_eq_zero]
    simp [matchIdCat]
  rw [delete_by_id_cat_eq]
  by_cases h : s.rows.countP (matchIdCat expense_id catogery) = 0
  · rw [if_pos h]
    exact ⟨rfl, iff_of_true rfl (hiff.mp h)⟩
  · rw [if_neg h]
    refine ⟨rfl, iff_of_false ?_ (fun hn => h (hiff.mpr hn))⟩
    simp [ToolResult.isErr]

/-- The branch shape of `delete_expense_by_id`. -/
theorem delete_by_id_eq (s : Store) (expense_id : Nat) :
    delete_expense_by_id s expense_id
      = if s.rows.countP (fun e => e.id == expense_id) = 0
          then (ToolResult.err "No expense found with the given ID.",
                Store.mk (s.rows.filter (fun e => !(e.id == expense_id))) s.nextId)
          else (ToolResult.ok "Expense deleted successfully.",
                Store.mk (s.rows.filter (fun e => !(e.id == expense_id))) s.nextId) :=
  rfl

/-- C4: delete by id errors with not-found exactly when no row matches
(leaving the state unchanged); delete by category always succeeds, its
message carrying the removed-row count (0 included); delete-all always
succeeds carrying the number of removed records, and run twice in a row
the second call reports count 0. -/
theorem claim_C4 (s : Store) (expense_id : Nat) (category : String) :
    (s.rows.countP (fun e => e.id == expense_id) = 0 →
        delete_expense_by_id s expense_id
          = (ToolResult.err "No expense found with the given ID.", s)) ∧
    (s.rows.countP (fun e => e.id == expense_id) ≠ 0 →
        (delete_expense_by_id s expense_id).1
            = ToolResult.ok "Expense deleted successfully." ∧
          (delete_expense_by_id s expense_id).2.rows
            = s.rows.filter (fun e => !(e.id == expense_id))) ∧
    ((delete_expenses_by_category s category).1
        = ToolResult.ok (deletedByCategoryMsg
            (s.rows.countP (fun e => e.category == category)) category)) ∧
    ((delete_expenses_by_category s category).2.rows
        = s.rows.filter (fun e => !(e.category == category))) ∧
    ((delete_all_expenses s).1 = ToolResult.ok (deletedAllMsg s.rows.length)) ∧
    ((delete_all_expenses (delete_all_expenses s).2).1
        = ToolResult.ok (deletedAllMsg 0)) := by
  refine ⟨fun h => ?_, fun h => ?_, rfl, rfl, rfl, rfl⟩
  · rw [delete_by_id_eq, if_pos h]
    have hf : s.rows.filter (fun e => !(e.id == expense_id)) = s.rows := by
      refine List.filter_eq_self.mpr (fun e he => ?_)
      have := List.countP_eq_zero.mp h e he
      simpa using this
    rw [hf]
  · rw [delete_by_id_eq, if_neg h]
    exact ⟨rfl, rfl⟩

/-- The concrete store used to witness C4. -/
def storeW4 : Store := ⟨[⟨1, "2024-01-05", 12, "Food", "", ""⟩], 2⟩

theorem claim_C4_witness :
    delete_expense_by_id storeW4 99
        = (ToolResult.err "No expense found with the given ID.", storeW4) ∧
      (delete_expense_by_id storeW4 1).1 = ToolResult.ok "Expense deleted successfully." ∧
      (delete_all_expenses (delete_all_expenses storeW4).2).1
        = ToolResult.ok (deletedAllMsg 0) :=
  ⟨(claim_C4 storeW4 99 "Food").1 (by decide),
   ((claim_C4 storeW4 1 "Food").2.1 (by decide)).1,
   (claim_C4 storeW4 1 "Food").2.2.2.2.2⟩

/-- With unique ids, an existing id is matched by exactly one row. -/
theorem countP_id_eq_one {l : List Expense}
    (hnodup : l.Pairwise (fun a b => a.id ≠ b.id))
    {i : Nat} (hmem : ∃ e ∈ l, e.id = i) :
    l.countP (fun e => e.id == i) = 1 := by
  induction l with
  | nil => simp at hmem
  | cons a t ih =>
    obtain ⟨ha, ht⟩ := List.pairwise_cons.mp hnodup
    obtain ⟨e, he, hei⟩ := hmem
    rw [List.countP_cons]
    rcases List.mem_cons.mp he with rfl | het
    · have h0 : t.countP (fun x => x.id == i) = 0 := by
        refine List.countP_eq_zero.mpr (fun x hx => ?_)
        simp only [beq_iff_eq]
        exact fun hxi => (ha x hx) (by rw [hei, hxi])
      simp [h0, hei]
    · have h1 := ih ht ⟨e, het, hei⟩
      have hai : a.id ≠ i := fun hca => (ha e het) (by rw [hca, hei])
      simp [h1, hai]

/-- The branch shape of `update_expense` when at least one field is provided. -/
theorem update_expense_eq (s : Store) (expense_id : Nat) (p : Patch)
    (hp : p.isEmpty = false) :
    update_expense s expense_id p
      = if s.rows.countP (fun e => e.id == expense_id) = 0
          then (ToolResult.err "No expense found with the given ID.",
                Store.mk
                  (s.rows.map (fun e => if e.id == expense_id then applyPatch p e else e))
                  s.nextId)
          else (ToolResult.ok "Expense updated successfully.",
                Store.mk
                  (s.rows.map (fun e => if e.id == expense_id then applyPatch p e else e))
                  s.nextId) := by
  unfold update_expense
  rw [hp]
  rfl

/-- C3: update with all fields at the sentinel fails with "no fields to
update" leaving storage untouched; update of a nonexistent id fails with
not-found leaving storage untouched; update of an existing id (values
equal or not) reports success and matches exactly one row, overwriting
exactly the provided fields (empty string included) and keeping sentinel
fields unchanged. -/
theorem claim_C3 (s : Store) (expense_id : Nat) (p : Patch)
    (hnodup : s.rows.Pairwise (fun a b => a.id ≠ b.id))
    (hmem : ∃ e ∈ s.rows, e.id = expense_id) :
    (∀ q : Patch, q.isEmpty = true →
        update_expense s expense_id q = (ToolResult.err "No fields to update.", s)) ∧
    (∀ badId : Nat, (∀ e ∈ s.rows, e.id ≠ badId) → p.isEmpty = false →
        update_expense s badId p
          = (ToolResult.err "No expense found with the given ID.", s)) ∧
    (p.isEmpty = false →
        (update_expense s expense_id p).1 = ToolResult.ok "Expense updated successfully." ∧
        (update_expense s expense_id p).2.rows
          = s.rows.map (fun e => if e.id == expense_id then applyPatch p e else e) ∧
        s.rows.countP (fun e => e.id == expense_id) = 1) ∧
    (∀ x : Expense,
        (p.date = none → (applyPatch p x).date = x.date) ∧
        (∀ v, p.date = some v → (applyPatch p x).date = v) ∧
        (p.amount = none → (applyPatch p x).amount = x.amount) ∧
        (∀ v, p.amount = some v → (applyPatch p x).amount = v) ∧
        (p.category = none → (applyPatch p x).category = x.category) ∧
        (∀ v, p.category = some v → (applyPatch p x).category = v) ∧
        (p.subcategory = none → (applyPatch p x).subcategory = x.subcategory) ∧
        (∀ v, p.subcategory = some v → (applyPatch p x).subcategory = v) ∧
        (p.note = none → (applyPatch p x).note = x.note) ∧
        (∀ v, p.note = some v → (applyPatch p x).note = v)) := by
  refine ⟨?_, ?_, ?_, ?_⟩
  · intro q hq
    unfold update_expense
    rw [hq]
    rfl
  · intro badId hbad hp
    have h0 : s.rows.countP (fun e => e.id == badId) = 0 := by
      refine List.countP_eq_zero.mpr (fun e he => ?_)
      simpa using hbad e he
    rw [update_expense_eq s badId p hp, if_pos h0]
    have hmap : s.rows.map (fun e => if e.id == badId then applyPatch p e else e)
        = s.rows := by
      have := List.map_congr_left (fun e (he : e ∈ s.rows) => by
        simp [hbad e he] : ∀ e ∈ s.rows,
          (if e.id == badId then applyPatch p e else e) = e)
      simpa using this
    rw [hmap]
  · intro hp
    have h1 := countP_id_eq_one hnodup hmem
    rw [update_expense_eq s expense_id p hp, if_neg (by rw [h1]; exact one_ne_zero)]
    exact ⟨rfl, rfl, h1⟩
  · intro x
    refine ⟨fun h => by simp [applyPatch, h], fun v h => by simp [applyPatch, h],
            fun h => by simp [applyPatch, h], fun v h => by simp [applyPatch, h],
            fun h => by simp [applyPatch, h], fun v h => by simp [applyPatch, h],
            fun h => by simp [applyPatch, h], fun v h => by simp [applyPatch, h],
            fun h => by simp [applyPatch, h], fun v h => by simp [applyPatch, h]⟩

/-- The concrete store used to witness C3. -/
def storeW3 : Store :=
  ⟨[⟨1, "2024-01-05", 12, "Food", "", ""⟩, ⟨2, "2024-01-01", 5, "Fuel", "", ""⟩], 3⟩

/-- The concrete patch used to witness C3. -/
def patchW3 : Patch := ⟨none, none, some "Transport", none, none⟩

theorem claim_C3_witness :
    (update_expense storeW3 1 patchW3).1 = ToolResult.ok "Expense updated successfully." ∧
      storeW3.rows.countP (fun e => e.id == 1) = 1 ∧
      update_expense storeW3 1 (Patch.mk none none none none none)
        = (ToolResult.err "No fields to update.", storeW3) := by
  have h := claim_C3 storeW3 1 patchW3 (by decide)
    ⟨Expense.mk 1 "2024-01-05" 12 "Food" "" "", by decide⟩
  exact ⟨(h.2.2.1 (by decide)).1, (h.2.2.1 (by decide)).2.2,
    h.1 (Patch.mk none none none none none) (by decide)⟩

@[simp] theorem getSummary_summary (l : List (String × Rat)) :
    (ToolResult.summary l).getSummary = l := rfl

/-- Projecting the category column back out of the aggregate rows. -/
theorem map_fst_pairs (g : String → Rat) :
    ∀ cats : List String, (cats.map (fun c => (c, g c))).map Prod.fst = cats
  | [] => rfl
  | c :: cs => by simp [map_fst_pairs g cs]

/-- A duplicate-free list whose elements are all equal has at most one element. -/
theorem length_le_one_of_all_eq {β : Type} {c : β} :
    ∀ {l : List β}, l.Nodup → (∀ x ∈ l, x = c) → l.length ≤ 1
  | [], _, _ => by simp
  | [_], _, _ => by simp
  | x :: y :: t, hn, h => by
    exfalso
    have hx := h x (List.mem_cons_self x (y :: t))
    have hy := h y (List.mem_cons_of_mem x (List.mem_cons_self y t))
    exact (List.pairwise_cons.mp hn).1 y (List.mem_cons_self y t) (by rw [hx, hy])

/-- The `GROUP BY category` key list contains no duplicates. -/
theorem catsOf_nodup (R : List Expense) :
    (List.insertionSort strLe (R.map Expense.category).dedup).Nodup :=
  ((List.perm_insertionSort strLe _).nodup_iff).mpr (List.nodup_dedup _)

/-- The `GROUP BY category` key list holds exactly the categories present. -/
theorem mem_catsOf (R : List Expense) (x : String) :
    x ∈ List.insertionSort strLe (R.map Expense.category).dedup
      ↔ x ∈ R.map Expense.category :=
  (List.mem_insertionSort strLe).trans List.mem_dedup

/-- C2: with no category filter, `summarize` returns one row per distinct
category among the records in the date range, each total being the sum of
that category's amounts in range, ordered ascending by category name; with
a (truthy) category filter it returns at most one row, for that category
only. -/
theorem claim_C2 (s : Store) (d1 d2 : String) (c : String) (hc : c ≠ "") :
    (((summarize s d1 d2 none).getSummary).map Prod.fst).Nodup ∧
    (∀ cat : String,
        cat ∈ ((summarize s d1 d2 none).getSummary).map Prod.fst ↔
          cat ∈ (s.rows.filter (fun e => between e.date d1 d2)).map Expense.category) ∧
    (∀ row ∈ (summarize s d1 d2 none).getSummary,
        row.2 = sumAmounts ((s.rows.filter (fun e => between e.date d1 d2)).filter
          (fun e => e.category == row.1))) ∧
    (((summarize s d1 d2 none).getSummary).map Prod.fst).Pairwise strLe ∧
    ((summarize s d1 d2 (some c)).getSummary).length ≤ 1 ∧
    (∀ row ∈ (summarize s d1 d2 (some c)).getSummary, row.1 = c) := by
  have hres : (summarize s d1 d2 none).getSummary
      = (List.insertionSort strLe
          ((s.rows.filter (fun e => between e.date d1 d2)).map Expense.category).dedup).map
          (fun k => (k, sumAmounts ((s.rows.filter (fun e => between e.date d1 d2)).filter
            (fun e => e.category == k)))) := rfl
  have hcb : (c != "") = true := by simpa using hc
  have hres' : (summarize s d1 d2 (some c)).getSummary
      = (List.insertionSort strLe
          (((s.rows.filter (fun e => between e.date d1 d2)).filter
              (fun e => e.category == c)).map Expense.category).dedup).map
          (fun k => (k, sumAmounts (((s.rows.filter (fun e => between e.date d1 d2)).filter
              (fun e => e.category == c)).filter (fun e => e.category == k)))) := by
    have htr : truthy (some c) = true := hcb
    simp only [summarize, getSummary_summary, htr, if_true]
    rfl
  have hall : ∀ x ∈ List.insertionSort strLe
      (((s.rows.filter (fun e => between e.date d1 d2)).filter
          (fun e => e.category == c)).map Expense.category).dedup, x = c := by
    intro x hx
    have hx' := (mem_catsOf _ x).mp hx
    obtain ⟨e, he, hce⟩ := List.mem_map.mp hx'
    have := (List.mem_filter.mp he).2
    rw [← hce]
    exact beq_iff_eq.mp this
  refine ⟨?_, ?_, ?_, ?_, ?_, ?_⟩
  · rw [hres, map_fst_pairs]
    exact catsOf_nodup _
  · intro cat
    rw [hres, map_fst_pairs]
    exact mem_catsOf _ cat
  · intro row hrow
    rw [hres] at hrow
    obtain ⟨k, _, hEq⟩ := List.mem_map.mp hrow
    rw [← hEq]
  · rw [hres, map_fst_pairs]
    exact List.sorted_insertionSort strLe _
  · rw [hres', List.length_map]
    exact length_le_one_of_all_eq (catsOf_nodup _) hall
  · intro row hrow
    rw [hres'] at hrow
    obtain ⟨k, hk, hEq⟩ := List.mem_map.mp hrow
    rw [← hEq]
    exact hall k hk

/-- The concrete store used to witness C2. -/
def storeW2 : Store :=
  ⟨[⟨1, "2024-01-05", 12, "Food", "", ""⟩,
    ⟨2, "2024-01-02", 5, "Fuel", "", ""⟩,
    ⟨3, "2024-02-09", 7, "Food", "", ""⟩], 4⟩

theorem claim_C2_witness :
    (((summarize storeW2 "2024-01-01" "2024-01-31" none).getSummary).map Prod.fst).Nodup ∧
      ((summarize storeW2 "2024-01-01" "2024-01-31" (some "Food")).getSummary).length ≤ 1 :=
  ⟨(claim_C2 storeW2 "2024-01-01" "2024-01-31" "Food" (by decide)).1,
   (claim_C2 storeW2 "2024-01-01" "2024-01-31" "Food" (by decide)).2.2.2.2.1⟩

/-- C6: for every backend fault, every caller-facing operation returns the
structured error payload (status error plus message) instead of
propagating the fault; the one exception is the startup initialization,
which re-raises its fault. -/
theorem claim_C6 (e : String) (s : Store) (date : String) (amount : Rat)
    (category subcategory note d1 d2 : String) (copt : Option String)
    (expense_id : Nat) (p : Patch) :
    ((add_expense_catch (some e) s date amount category subcategory note).1.isErr = true) ∧
    ((get_all_expenses_catch (some e) s).isErr = true) ∧
    ((list_expenses_by_date_catch (some e) s d1 d2).isErr = true) ∧
    ((summarize_catch (some e) s d1 d2 copt).isErr = true) ∧
    ((delete_expense_by_id_catogery_catch (some e) s category expense_id).1.isErr = true) ∧
    ((delete_expense_by_id_catch (some e) s expense_id).1.isErr = true) ∧
    ((delete_expenses_by_category_catch (some e) s category).1.isErr = true) ∧
    ((delete_all_expenses_catch (some e) s).1.isErr = true) ∧
    ((update_expense_catch (some e) s expense_id p).1.isErr = true) ∧
    (init_db_catch (some e) s = Except.error e) := by
  refine ⟨?_, rfl, rfl, rfl, rfl, rfl, rfl, rfl, rfl, rfl⟩
  show (addOnError e).isErr = true
  unfold addOnError
  split <;> rfl

/-- C8 is false as stated: a read-only fault hitting `update_expense` is
reported with the generic backend message, not with the read-only hint
that `add_expense` produces, so the distinguishing diagnostic does not
hold for all writing operations. -/
theorem claim_C8_counterexample :
    updateOnError "attempt to write a readonly database"
        = ToolResult.err ("Error updating expense: " ++ "attempt to write a readonly database") ∧
      updateOnError "attempt to write a readonly database"
        ≠ ToolResult.err "Database is in read-only mode. Check file permissions." ∧
      addOnError "attempt to write a readonly database"
        = ToolResult.err "Database is in read-only mode. Check file permissions." := by
  decide

/-- C8 amended: only `add_expense` surfaces the read-only hint for faults
whose text contains "readonly"; `update_expense` and all four delete
operations report their generic backend-error message even then. -/
theorem claim_C8_amended (e : String)
    (h : strContains (strLower e) "readonly" = true) :
    addOnError e = ToolResult.err "Database is in read-only mode. Check file permissions." ∧
    updateOnError e = ToolResult.err ("Error updating expense: " ++ e) ∧
    deleteByIdOnError e = ToolResult.err ("Error deleting expense: " ++ e) ∧
    deleteByIdCatOnError e = ToolResult.err ("Error deleting expense: " ++ e) ∧
    deleteByCategoryOnError e
        = ToolResult.err ("Error deleting expenses by category: " ++ e) ∧
    deleteAllOnError e = ToolResult.err ("Error deleting all expenses: " ++ e) :=
  ⟨by unfold addOnError; rw [if_pos h], rfl, rfl, rfl, rfl, rfl⟩

theorem claim_C8_amended_witness :
    addOnError "attempt to write a readonly database"
        = ToolResult.err "Database is in read-only mode. Check file permissions." ∧
      updateOnError "attempt to write a readonly database"
        = ToolResult.err ("Error updating expense: " ++ "attempt to write a readonly database") :=
  ⟨(claim_C8_amended "attempt to write a readonly database" (by decide)).1,
   (claim_C8_amended "attempt to write a readonly database" (by decide)).2.1⟩
